import Mathlib

/-!
Shallow embedding of the two decision engines of the mail-agent repository:
the label matcher (`src/classifier.py`, class `EmailClassifier`) and the
retention evaluator (`src/cleaner.py`, class `EmailCleaner`), together with
proofs about them.

Python text values are modelled as lists of characters; Python dictionaries
with a fixed key set are modelled as structures.  Optional dictionary keys
(`labels`/`flags` on an email, `delete_older_than` in the cleanup
configuration) become `Option` fields.  Criteria fields accessed via the
idiom `'k' in criteria and criteria['k']` are modelled as plain lists, with
`[]` standing for "absent or empty" — the two cases are indistinguishable to
that idiom.  Fallible operations become `Except`/`Option` values.
-/

namespace MailAgent

/-- Python strings, modelled as lists of characters. -/
abbrev Str := List Char

/-- Python `s.lower()`. -/
def lower (s : Str) : Str := s.map Char.toLower

/-- Does the first string start with the second? -/
def startsWithStr : Str → Str → Bool
  | _, [] => true
  | [], _ :: _ => false
  | c :: s, d :: p => c == d && startsWithStr s p

/-- Python `needle in haystack` substring containment on strings. -/
def containsSub : Str → Str → Bool
  | [], needle => startsWithStr [] needle
  | c :: rest, needle => startsWithStr (c :: rest) needle || containsSub rest needle

/-- Python `s.endswith(suffix)`. -/
def endsWith (s suffix : Str) : Bool := startsWithStr s.reverse suffix.reverse

/-- Python `s.strip()`: remove leading and trailing whitespace. -/
def strip (s : Str) : Str :=
  ((s.dropWhile Char.isWhitespace).reverse.dropWhile Char.isWhitespace).reverse

/-- Python `s.split(sep)` for a one-character separator: the result is always
nonempty, and splitting a string without the separator yields the whole
string as the single chunk. -/
def pySplit (sep : Char) : Str → List Str
  | [] => [[]]
  | c :: rest =>
    let r := pySplit sep rest
    if c = sep then [] :: r
    else (c :: r.headD []) :: r.tail

/-- A normalized email record (`email_data` dictionaries in the source).
`fromField` is the raw `from` header (`from` is a Lean keyword).  `labels`
(Gmail) and `flags` (IMAP) are optional keys of the dictionary. -/
structure Email where
  subject : Str
  fromField : Str
  body : Str
  date : Str
  labels : Option (List Str) := none
  flags : Option (List Str) := none

/-- The `criteria` dictionary of a label rule (`src/classifier.py`).
`cfrom` models the `from` key.  `[]` models an absent or empty entry. -/
structure Criteria where
  cfrom : List Str := []
  from_name : List Str := []
  from_domain : List Str := []
  subject_contains : List Str := []
  body_contains : List Str := []

/-- A label configuration entry: `{'name': ..., 'criteria': ...}`. -/
structure LabelRule where
  name : Str
  criteria : Criteria

/-- The cleaning configuration dictionary of `EmailCleaner`.
`delete_older_than` is optional; the source reads it with
`config.get('delete_older_than')` and tests the result for truthiness. -/
structure CleanupPolicy where
  delete_newsletters : Bool := false
  newsletter_domains : List Str := []
  delete_older_than : Option Nat := none
  delete_read : Bool := false

/-- Model of the regex search `re.search(r'<([^>]+)>', s)` used by
`EmailCleaner._extract_domain`: scan left to right for a `<` followed by a
nonempty run of non-`>` characters followed by `>`; return the text before
the match together with the captured group, or `none` when no position
matches. -/
def splitAngle : Str → Option (Str × Str)
  | [] => none
  | c :: rest =>
    if c = '<' then
      let cap := rest.takeWhile (fun d => d ≠ '>')
      if cap ≠ [] ∧ rest.drop cap.length ≠ [] then some ([], cap)
      else (splitAngle rest).map (fun p => (c :: p.1, p.2))
    else (splitAngle rest).map (fun p => (c :: p.1, p.2))

/-- Model of the Python standard-library `email.utils.parseaddr`, which is
not part of this repository; following the spec's description of
header-address parsing: split the display name from the angle-bracket
address, or treat the whole string as a bare address when no angle-bracket
pair is present.  Returns `(display name, address)`. -/
def parseaddr (f : Str) : Str × Str :=
  match splitAngle f with
  | some (pre, addr) => (strip pre, addr)
  | none => ([], strip f)

namespace Classifier

/-- `EmailClassifier._extract_email`: the address part of `parseaddr`. -/
def extract_email (f : Str) : Str := (parseaddr f).2

/-- `EmailClassifier._extract_name`: the display-name part of `parseaddr`. -/
def extract_name (f : Str) : Str := (parseaddr f).1

/-- `EmailClassifier._extract_domain`: `email.split('@')[1]`, with the
`IndexError` of a missing index 1 caught and turned into `""`. -/
def extract_domain (f : Str) : Str :=
  (pySplit '@' (extract_email f)).getD 1 []

/-- `EmailClassifier._check_alternate_from_criteria`: true iff `from_name`
is configured and some configured name occurs (case-insensitively) inside
the decoded display name. -/
def check_alternate_from_criteria (e : Email) (c : Criteria) : Bool :=
  !c.from_name.isEmpty &&
    c.from_name.any (fun n => containsSub (lower (extract_name e.fromField)) (lower n))

/-- The `from` block of `EmailClassifier._matches_criteria` (lines 106-111):
the check passes when `from` is not configured, when the sender address
equals some configured address case-insensitively, or — failing that — when
the alternate `from_name` check succeeds. -/
def from_ok (e : Email) (c : Criteria) : Bool :=
  c.cfrom.isEmpty ||
    c.cfrom.any (fun a => lower (extract_email e.fromField) == lower a) ||
    check_alternate_from_criteria e c

/-- The `from_domain` block of `EmailClassifier._matches_criteria` (lines
113-117): passes when `from_domain` is not configured or the lowercased
sender domain ends with some configured suffix, lowercased. -/
def from_domain_ok (e : Email) (c : Criteria) : Bool :=
  c.from_domain.isEmpty ||
    c.from_domain.any (fun d => endsWith (lower (extract_domain e.fromField)) (lower d))

/-- The `subject_contains` block of `EmailClassifier._matches_criteria`. -/
def subject_ok (e : Email) (c : Criteria) : Bool :=
  c.subject_contains.isEmpty ||
    c.subject_contains.any (fun k => containsSub (lower e.subject) (lower k))

/-- The `body_contains` block of `EmailClassifier._matches_criteria`. -/
def body_ok (e : Email) (c : Criteria) : Bool :=
  c.body_contains.isEmpty ||
    c.body_contains.any (fun k => containsSub (lower e.body) (lower k))

/-- `EmailClassifier._matches_criteria`: the source is a chain of early
`return False` checks, one per criteria block; it is equivalent to the
conjunction of the four block checks. -/
def matches_criteria (e : Email) (c : Criteria) : Bool :=
  from_ok e c && from_domain_ok e c && subject_ok e c && body_ok e c

/-- `EmailClassifier._rule_based_classify`: collect the names of the rules
whose criteria match. -/
def rule_based_classify (e : Email) (rules : List LabelRule) : List Str :=
  (rules.filter (fun r => matches_criteria e r.criteria)).map LabelRule.name

/-- `EmailClassifier._llm_classify` / `_dummy_llm_call`: the placeholder
returns the empty list. -/
def llm_classify (_e : Email) : List Str := []

/-- `EmailClassifier.classify`: because of the `or True` in the source the
LLM branch is always taken, so the result is `list(set(rule_based + llm))`.
Python's `set` has arbitrary iteration order; `dedup` models it up to order
(the spec declares order insignificant). -/
def classify (e : Email) (rules : List LabelRule) : List Str :=
  (rule_based_classify e rules ++ llm_classify e).dedup

end Classifier

namespace Cleaner

/-- `EmailCleaner._extract_domain`, address step: the regex capture
`<([^>]+)>` when it matches, otherwise `from_field.strip()`. -/
def extract_addr (f : Str) : Str :=
  match splitAngle f with
  | some (_, addr) => addr
  | none => strip f

/-- `EmailCleaner._extract_domain`: `email.split('@')[-1]` on the extracted
address — the chunk after the last `@`, or the whole address when it has
no `@` (Python `split` always yields a nonempty list, so the `except`
branch returning `""` is unreachable here). -/
def extract_domain (f : Str) : Str :=
  (pySplit '@' (extract_addr f)).getLastD []

/-- The fixed keyword list of `EmailCleaner._is_newsletter`. -/
def newsletter_keywords : List Str :=
  ["newsletter".toList, "subscribe".toList, "update".toList,
   "digest".toList, "weekly".toList, "monthly".toList]

/-- `EmailCleaner._is_newsletter`: sender-domain substring match against the
configured newsletter domains, or a subject keyword, or `unsubscribe` in
the lowercased body. -/
def is_newsletter (e : Email) (p : CleanupPolicy) : Bool :=
  p.newsletter_domains.any
      (fun d => containsSub (lower (extract_domain e.fromField)) (lower d)) ||
    newsletter_keywords.any (fun k => containsSub (lower e.subject) k) ||
    containsSub (lower e.body) "unsubscribe".toList

/-- `EmailCleaner._is_too_old`.  The standard-library date parsing
`parsedate_to_datetime` and the clock `datetime.now()` are not part of this
repository; they are passed in as parameters: `parsedate` yields the
parsed instant in seconds, or `none` when parsing raises (the source
catches the exception and returns `False`); `now` is the current instant in
seconds, so `timedelta(days=maxAgeDays)` is `maxAgeDays * 86400` seconds.
The comparison of the source is strict: `email_date < cutoff_date`. -/
def is_too_old (parsedate : Str → Option Int) (now : Int) (e : Email)
    (maxAgeDays : Nat) : Bool :=
  match parsedate e.date with
  | some d => decide (d < now - (maxAgeDays : Int) * 86400)
  | none => false

/-- The Gmail unread marker. -/
def unreadLabel : Str := "UNREAD".toList

/-- The IMAP seen flag (Python `'\\Seen'`, a backslash and `Seen`). -/
def seenFlag : Str := "\\Seen".toList

/-- `EmailCleaner._is_read`: a `labels` key without `UNREAD`, or a `flags`
key with `\Seen`; otherwise `False`. -/
def is_read (e : Email) : Bool :=
  (match e.labels with
   | some ls => !(ls.contains unreadLabel)
   | none => false) ||
  (match e.flags with
   | some fs => fs.contains seenFlag
   | none => false)

/-- Python truthiness of `config.get('delete_older_than')`: an absent key
and a present value `0` are both falsy. -/
def truthyNat : Option Nat → Bool
  | some n => n != 0
  | none => false

/-- `EmailCleaner._should_delete`: the disjunction of the three guarded
checks, in source order. -/
def should_delete (parsedate : Str → Option Int) (now : Int) (e : Email)
    (p : CleanupPolicy) : Bool :=
  (p.delete_newsletters && is_newsletter e p) ||
  (truthyNat p.delete_older_than &&
    is_too_old parsedate now e (p.delete_older_than.getD 0)) ||
  (p.delete_read && is_read e)

/-- The loop body of `EmailCleaner.clean`.  The deletion callback
`delete_email` belongs to the external provider and may raise, modelled by
`Except Unit Bool`; the source wraps the whole loop in a single
`try`/`except` that returns the accumulated count, so a raised exception
stops the traversal and yields the count so far. -/
def cleanLoop (parsedate : Str → Option Int) (now : Int)
    (deleteFn : Email → Except Unit Bool) (p : CleanupPolicy) :
    List Email → Nat → Nat
  | [], acc => acc
  | e :: rest, acc =>
    if should_delete parsedate now e p then
      match deleteFn e with
      | .error _ => acc
      | .ok true => cleanLoop parsedate now deleteFn p rest (acc + 1)
      | .ok false => cleanLoop parsedate now deleteFn p rest acc
    else cleanLoop parsedate now deleteFn p rest acc

/-- `EmailCleaner.clean`: enumerate the mailbox (`get_all_emails`, which may
itself raise — then the `except` branch returns the count accumulated so
far, still `0`), then run the deletion loop. -/
def clean (parsedate : Str → Option Int) (now : Int)
    (getAll : Except Unit (List Email)) (deleteFn : Email → Except Unit Bool)
    (p : CleanupPolicy) : Nat :=
  match getAll with
  | .error _ => 0
  | .ok emails => cleanLoop parsedate now deleteFn p emails 0

end Cleaner

/-- Did the deletion callback return success (no exception, result `True`)? -/
def isOkTrue : Except Unit Bool → Bool
  | .ok true => true
  | _ => false

/-- The number of emails of a list that `should_delete` selects and whose
deletion the callback reports as successful. -/
def successCount (parsedate : Str → Option Int) (now : Int)
    (deleteFn : Email → Except Unit Bool) (p : CleanupPolicy)
    (l : List Email) : Nat :=
  (l.filter (fun e => Cleaner.should_delete parsedate now e p &&
    isOkTrue (deleteFn e))).length

/-! Concrete sample data, used by witnesses and counterexamples. -/

/-- A bare email used by the C4 counterexample. -/
def plainEmail : Email := { subject := [], fromField := [], body := [], date := [] }

/-- A policy whose only set field is `delete_older_than = 0`. -/
def zeroDaysPolicy : CleanupPolicy := { delete_older_than := some 0 }

/-- The criteria of a rule configuring only `from_domain = {"company.com"}`. -/
def companyCriteria : Criteria := { from_domain := ["company.com".toList] }

/-- An email from `a@sub.company.com`. -/
def subCompanyEmail : Email :=
  { subject := [], fromField := "a@sub.company.com".toList, body := [], date := [] }

/-- An email from `a@notcompany.com`. -/
def notCompanyEmail : Email :=
  { subject := [], fromField := "a@notcompany.com".toList, body := [], date := [] }

/-- An email from `a@other.org`, matching no `company.com` suffix. -/
def otherOrgEmail : Email :=
  { subject := [], fromField := "a@other.org".toList, body := [], date := [] }

/-- An email whose display name, but not address, matches the boss rule. -/
def bossEmail : Email :=
  { subject := [], fromField := "Big Boss <ceo@corp.com>".toList, body := [], date := [] }

/-- Criteria with both `from` and the `from_name` fallback configured. -/
def bossCriteria : Criteria :=
  { cfrom := ["boss@company.com".toList], from_name := ["boss".toList] }

/-- Criteria configuring only `from_name`, with no `from`. -/
def onlyNameCriteria : Criteria := { from_name := ["boss".toList] }

/-- An email selected for deletion, on which the failing callback raises. -/
def readEmailA : Email :=
  { subject := "a".toList, fromField := [], body := [], date := [],
    flags := some [Cleaner.seenFlag] }

/-- An email selected for deletion, on which the callbacks succeed. -/
def readEmailB : Email :=
  { subject := "b".toList, fromField := [], body := [], date := [],
    flags := some [Cleaner.seenFlag] }

/-- A policy deleting read emails only. -/
def readPolicy : CleanupPolicy := { delete_read := true }

/-- A deletion callback that raises on `readEmailA` and succeeds elsewhere. -/
def failFirstDelete : Email → Except Unit Bool :=
  fun e => if e.subject == "a".toList then .error () else .ok true

/-- A rule matching the `company.com` domain, as in the repository's tests. -/
def workRule : LabelRule :=
  { name := "Work".toList, criteria := { from_domain := ["company.com".toList] } }

/-- An email from a `company.com` address. -/
def workEmail : Email :=
  { subject := "Team update".toList, fromField := "colleague@company.com".toList,
    body := "Here is the latest team update".toList, date := [] }

/-- An email whose body contains `Unsubscribe` but whose sender and subject
match nothing. -/
def unsubEmail : Email :=
  { subject := "hello".toList, fromField := "a@b.com".toList,
    body := "Please Unsubscribe here".toList, date := [] }

/-! ## C5 -/

/-- C5: for every email and rule list, `classify` returns a duplicate-free
list whose every element is the name of some supplied rule. -/
theorem classify_nodup_subset (e : Email) (rules : List LabelRule) :
    (Classifier.classify e rules).Nodup ∧
    ∀ l ∈ Classifier.classify e rules, l ∈ rules.map LabelRule.name := by
  refine ⟨List.nodup_dedup _, fun l hl => ?_⟩
  rw [Classifier.classify, List.mem_dedup, List.mem_append] at hl
  rcases hl with h | h
  · rw [Classifier.rule_based_classify] at h
    rcases List.mem_map.mp h with ⟨r, hr, rfl⟩
    exact List.mem_map_of_mem _ (List.mem_of_mem_filter hr)
  · simp [Classifier.llm_classify] at h

/-- Witness for C5 at a concrete email and one-rule list. -/
theorem classify_nodup_subset_witness :
    (Classifier.classify workEmail [workRule]).Nodup ∧
    "Work".toList ∈ [workRule].map LabelRule.name :=
  ⟨(classify_nodup_subset workEmail [workRule]).1,
   (classify_nodup_subset workEmail [workRule]).2 "Work".toList (by decide)⟩

/-! ## C7 -/

/-- C7: `is_newsletter` is exactly the disjunction of the newsletter-domain
substring check, the fixed subject-keyword check, and the `unsubscribe`
body check; in particular a body containing `Unsubscribe` in any case makes
it true even with no domain or subject match. -/
theorem is_newsletter_disjunction :
    (∀ (e : Email) (p : CleanupPolicy),
      Cleaner.is_newsletter e p = true ↔
        ((∃ d ∈ p.newsletter_domains,
            containsSub (lower (Cleaner.extract_domain e.fromField)) (lower d) = true) ∨
         (∃ k ∈ Cleaner.newsletter_keywords,
            containsSub (lower e.subject) k = true) ∨
         containsSub (lower e.body) "unsubscribe".toList = true)) ∧
    Cleaner.is_newsletter unsubEmail {} = true := by
  constructor
  · intro e p
    simp [Cleaner.is_newsletter, List.any_eq_true, or_assoc]
  · decide

/-! ## C8 -/

/-- C8: `is_too_old` is true exactly when the date parses to an instant
strictly earlier than now minus `maxAgeDays` days; an unparseable date
yields `false` with no propagated error. -/
theorem is_too_old_semantics (parsedate : Str → Option Int) (now : Int)
    (e : Email) (m : Nat) :
    (Cleaner.is_too_old parsedate now e m = true ↔
      ∃ d, parsedate e.date = some d ∧ d < now - (m : Int) * 86400) ∧
    (parsedate e.date = none → Cleaner.is_too_old parsedate now e m = false) := by
  rcases h : parsedate e.date with _ | d <;>
    simp [Cleaner.is_too_old, h]

/-- Witness for C8 on an unparseable date. -/
theorem is_too_old_semantics_witness :
    Cleaner.is_too_old (fun _ => none) 0 unsubEmail 30 = false :=
  (is_too_old_semantics (fun _ => none) 0 unsubEmail 30).2 rfl

/-! ## C9 -/

/-- C9: `is_read` is true exactly when a carried label set lacks `UNREAD`
or a carried flag set contains `\Seen`; with neither representation the
email counts as unread. -/
theorem is_read_semantics (e : Email) :
    (Cleaner.is_read e = true ↔
      ((∃ ls, e.labels = some ls ∧ Cleaner.unreadLabel ∉ ls) ∨
       (∃ fs, e.flags = some fs ∧ Cleaner.seenFlag ∈ fs))) ∧
    (e.labels = none → e.flags = none → Cleaner.is_read e = false) := by
  obtain ⟨s, f, b, d, ls, fs⟩ := e
  rcases ls with _ | ls <;> rcases fs with _ | fs <;>
    simp [Cleaner.is_read, List.contains]

/-- Witness for C9 on an email carrying neither labels nor flags. -/
theorem is_read_semantics_witness :
    Cleaner.is_read unsubEmail = false :=
  (is_read_semantics unsubEmail).2 rfl rfl

/-! ## C10 -/

/-- C10: a policy with `delete_older_than` equal to `0` behaves identically
to one with the field absent — the age check is skipped (truthiness, not
presence), so such a policy never deletes on the basis of age alone. -/
theorem delete_older_than_zero_no_effect (parsedate : Str → Option Int)
    (now : Int) (e : Email) (p : CleanupPolicy) :
    Cleaner.should_delete parsedate now e { p with delete_older_than := some 0 } =
      Cleaner.should_delete parsedate now e { p with delete_older_than := none } ∧
    Cleaner.should_delete parsedate now e
      { delete_newsletters := false, newsletter_domains := p.newsletter_domains,
        delete_older_than := some 0, delete_read := false } = false := by
  constructor <;>
    simp [Cleaner.should_delete, Cleaner.truthyNat, Cleaner.is_newsletter]

/-! ## C4 -/

/-- C4 counterexample: with `delete_older_than` present but `0` and a date
parsing to an instant earlier than now, condition (2) of the claim —
`delete_older_than` *is set* and `is_too_old` holds for that many days — is
true, yet `should_delete` returns `false`, because the source tests the
config value for truthiness and `0` is falsy. -/
theorem should_delete_zero_days_counterexample :
    ¬ (Cleaner.should_delete (fun _ => some 0) 100 plainEmail zeroDaysPolicy = true ↔
        ((zeroDaysPolicy.delete_newsletters = true ∧
            Cleaner.is_newsletter plainEmail zeroDaysPolicy = true) ∨
         (zeroDaysPolicy.delete_older_than ≠ none ∧
            Cleaner.is_too_old (fun _ => some 0) 100 plainEmail
              (zeroDaysPolicy.delete_older_than.getD 0) = true) ∨
         (zeroDaysPolicy.delete_read = true ∧
            Cleaner.is_read plainEmail = true))) := by
  decide

/-- C4 amended: `should_delete` is the disjunction of the three checks in
source order, where the age check requires `delete_older_than` to be set to
a nonzero number of days (truthiness, not mere presence). -/
theorem should_delete_disjunction (parsedate : Str → Option Int) (now : Int)
    (e : Email) (p : CleanupPolicy) :
    Cleaner.should_delete parsedate now e p = true ↔
      ((p.delete_newsletters = true ∧ Cleaner.is_newsletter e p = true) ∨
       (∃ n, p.delete_older_than = some n ∧ n ≠ 0 ∧
          Cleaner.is_too_old parsedate now e n = true) ∨
       (p.delete_read = true ∧ Cleaner.is_read e = true)) := by
  rcases h : p.delete_older_than with _ | n <;>
    simp [Cleaner.should_delete, Cleaner.truthyNat, h, or_assoc]

/-! ## C6 -/

/-- C6 counterexample: the claim says a rule with only
`from_domain = {"company.com"}` does not match an email from
`a@notcompany.com`, but the source's plain `endswith` comparison accepts it,
since `notcompany.com` ends with `company.com`. -/
theorem from_domain_matches_notcompany :
    Classifier.matches_criteria notCompanyEmail companyCriteria = true := by
  decide

/-- C6 amended: with `from_domain` present, the check fails exactly when the
lowercased sender domain ends with none of the lowercased configured
suffixes; a rule with only `from_domain = {"company.com"}` matches both
`a@sub.company.com` and `a@notcompany.com` (plain suffix match with no dot
boundary). -/
theorem from_domain_suffix_semantics :
    (∀ (e : Email) (c : Criteria), c.from_domain ≠ [] →
      (Classifier.from_domain_ok e c = false ↔
        ∀ d ∈ c.from_domain,
          endsWith (lower (Classifier.extract_domain e.fromField)) (lower d) = false)) ∧
    Classifier.matches_criteria subCompanyEmail companyCriteria = true ∧
    Classifier.matches_criteria notCompanyEmail companyCriteria = true := by
  refine ⟨fun e c hc => ?_, by decide, by decide⟩
  simp [Classifier.from_domain_ok, List.any_eq_true, hc]

/-- Witness for C6 at a concrete non-matching email. -/
theorem from_domain_suffix_semantics_witness :
    Classifier.from_domain_ok otherOrgEmail companyCriteria = false :=
  (from_domain_suffix_semantics.1 otherOrgEmail companyCriteria (by decide)).mpr
    (by decide)

/-! ## C3 -/

/-- C3 counterexample: on the bare address `noat`, which contains no `@`,
the cleaner's extraction returns the whole address while the classifier's
returns the empty string, so the two extractions do not agree and the
cleaner does not yield the empty string. -/
theorem extract_domain_disagreement :
    Cleaner.extract_domain "noat".toList = "noat".toList ∧
    Classifier.extract_domain "noat".toList = [] ∧
    Cleaner.extract_domain "noat".toList ≠ Classifier.extract_domain "noat".toList := by
  refine ⟨by decide, by decide, by decide⟩

/-- C3 amended: the two extractions agree — both yielding the chunk after
the `@` — whenever the cleaner's address step and the classifier's
`parseaddr` produce the same address and that address contains exactly one
`@` (splits into two chunks).  In general they differ: with no `@` the
classifier yields the empty string while the cleaner yields the whole
address, and with several `@`s the classifier takes the chunk after the
first while the cleaner takes the chunk after the last. -/
theorem extract_domain_agree (f : Str)
    (haddr : Cleaner.extract_addr f = Classifier.extract_email f)
    (hone : (pySplit '@' (Classifier.extract_email f)).length = 2) :
    Cleaner.extract_domain f = Classifier.extract_domain f := by
  rcases h : pySplit '@' (Classifier.extract_email f) with _ | ⟨a, l⟩ <;>
    rw [h] at hone
  · simp at hone
  · rcases l with _ | ⟨b, l2⟩
    · simp at hone
    · rcases l2 with _ | _
      · rw [Cleaner.extract_domain, Classifier.extract_domain, haddr, h]; rfl
      · simp at hone

/-- Witness for C3 at a well-formed bare address. -/
theorem extract_domain_agree_witness :
    Cleaner.extract_domain "x@y.com".toList = Classifier.extract_domain "x@y.com".toList :=
  extract_domain_agree "x@y.com".toList (by decide) (by decide)

/-! ## C2 -/

/-- C2: when `from` is configured and the sender address equals none of its
entries case-insensitively, the `from` check is satisfied exactly when
`from_name` is configured and some configured name occurs
case-insensitively in the decoded display name; and a rule configuring only
`from_name` with no `from` has no effect — `matches_criteria` is invariant
under replacing its `from_name` entries. -/
theorem from_name_fallback_semantics (e : Email) (c : Criteria) :
    (c.cfrom ≠ [] →
      (∀ a ∈ c.cfrom, lower (Classifier.extract_email e.fromField) ≠ lower a) →
      (Classifier.from_ok e c = true ↔
        (c.from_name ≠ [] ∧ ∃ n ∈ c.from_name,
          containsSub (lower (Classifier.extract_name e.fromField)) (lower n) = true))) ∧
    (c.cfrom = [] → ∀ ns : List Str,
      Classifier.matches_criteria e c =
        Classifier.matches_criteria e { c with from_name := ns }) := by
  constructor
  · intro h1 h2
    have hempty : c.cfrom.isEmpty = false := by
      simp [List.isEmpty_iff, h1]
    have hany : c.cfrom.any
        (fun a => lower (Classifier.extract_email e.fromField) == lower a) = false := by
      rw [List.any_eq_false]
      intro a ha
      simp [h2 a ha]
    rw [Classifier.from_ok, hempty, hany]
    simp [Classifier.check_alternate_from_criteria, List.any_eq_true,
      List.isEmpty_iff]
  · intro h0 ns
    simp [Classifier.matches_criteria, Classifier.from_ok, Classifier.from_domain_ok,
      Classifier.subject_ok, Classifier.body_ok, h0]

/-- Witness for C2: the fallback rescues a name match, and dropping the
`from_name` entries of a `from`-less rule changes nothing. -/
theorem from_name_fallback_semantics_witness :
    Classifier.from_ok bossEmail bossCriteria = true ∧
    Classifier.matches_criteria bossEmail onlyNameCriteria =
      Classifier.matches_criteria bossEmail { onlyNameCriteria with from_name := [] } :=
  ⟨((from_name_fallback_semantics bossEmail bossCriteria).1 (by decide)
      (by decide)).mpr (by decide),
   (from_name_fallback_semantics bossEmail onlyNameCriteria).2 rfl []⟩

/-! ## C1 -/

/-- When no selected email's deletion raises, the clean loop adds the
number of successful deletions to its accumulator. -/
theorem cleanLoop_no_error (parsedate : Str → Option Int) (now : Int)
    (deleteFn : Email → Except Unit Bool) (p : CleanupPolicy) :
    ∀ (l : List Email) (acc : Nat),
      (∀ e ∈ l, Cleaner.should_delete parsedate now e p = true →
        deleteFn e ≠ .error ()) →
      Cleaner.cleanLoop parsedate now deleteFn p l acc =
        acc + successCount parsedate now deleteFn p l := by
  intro l
  induction l with
  | nil => intro acc h; simp [Cleaner.cleanLoop, successCount]
  | cons e rest ih =>
    intro acc h
    have hrest : ∀ e' ∈ rest, Cleaner.should_delete parsedate now e' p = true →
        deleteFn e' ≠ .error () :=
      fun e' he' => h e' (List.mem_cons_of_mem _ he')
    rw [Cleaner.cleanLoop]
    rcases hsd : Cleaner.should_delete parsedate now e p with _ | _
    · rw [ih acc hrest]
      simp [successCount, List.filter_cons, hsd]
    · rcases hdel : deleteFn e with u | b
      · cases u
        exact absurd hdel (h e (List.mem_cons_self e rest) hsd)
      · rcases b with _ | _
        · rw [ih acc hrest]
          simp [successCount, List.filter_cons, hsd, hdel, isOkTrue]
        · rw [ih (acc + 1) hrest]
          simp [successCount, List.filter_cons, hsd, hdel, isOkTrue]
          omega

/-- When the first raising deletion sits right after an exception-free
prefix, the clean loop returns the accumulator plus the prefix's successful
deletions: the emails after the failure are never processed. -/
theorem cleanLoop_error_at (parsedate : Str → Option Int) (now : Int)
    (deleteFn : Email → Except Unit Bool) (p : CleanupPolicy)
    (e : Email) (post : List Email)
    (hsd : Cleaner.should_delete parsedate now e p = true)
    (hdel : deleteFn e = .error ()) :
    ∀ (pre : List Email) (acc : Nat),
      (∀ e' ∈ pre, Cleaner.should_delete parsedate now e' p = true →
        deleteFn e' ≠ .error ()) →
      Cleaner.cleanLoop parsedate now deleteFn p (pre ++ e :: post) acc =
        acc + successCount parsedate now deleteFn p pre := by
  intro pre
  induction pre with
  | nil =>
    intro acc _
    rw [List.nil_append, Cleaner.cleanLoop, hsd]
    simp [hdel, successCount]
  | cons e1 rest ih =>
    intro acc h
    have hrest : ∀ e' ∈ rest, Cleaner.should_delete parsedate now e' p = true →
        deleteFn e' ≠ .error () :=
      fun e' he' => h e' (List.mem_cons_of_mem _ he')
    rw [List.cons_append, Cleaner.cleanLoop]
    rcases hsd1 : Cleaner.should_delete parsedate now e1 p with _ | _
    · rw [ih acc hrest]
      simp [successCount, List.filter_cons, hsd1]
    · rcases hdel1 : deleteFn e1 with u | b
      · cases u
        exact absurd hdel1 (h e1 (List.mem_cons_self e1 rest) hsd1)
      · rcases b with _ | _
        · rw [ih acc hrest]
          simp [successCount, List.filter_cons, hsd1, hdel1, isOkTrue]
        · rw [ih (acc + 1) hrest]
          simp [successCount, List.filter_cons, hsd1, hdel1, isOkTrue]
          omega

/-- C1 counterexample: with two deletable emails, a callback that raises on
the first and succeeds on the second, the source's single `try` around the
whole loop aborts the batch at the first failure and `clean` returns `0` —
under the claim the loop would continue past the failure, delete the second
email successfully and count it. -/
theorem clean_aborts_on_single_failure :
    Cleaner.clean (fun _ => none) 0 (.ok [readEmailA, readEmailB])
        failFirstDelete readPolicy = 0 ∧
    Cleaner.should_delete (fun _ => none) 0 readEmailB readPolicy = true ∧
    failFirstDelete readEmailB = .ok true := by
  refine ⟨rfl, by decide, rfl⟩

/-- C1 amended: `clean` never propagates an error; when enumerating the
mailbox fails it returns the count accumulated so far (`0`); when no
selected email's deletion raises it returns exactly the number of emails
for which the deletion callback returned success; but an exception while
processing a single email aborts the loop — `clean` then returns the
successful deletions of the preceding prefix, and the remaining emails are
not processed. -/
theorem clean_counts_successes_up_to_first_failure
    (parsedate : Str → Option Int) (now : Int)
    (deleteFn : Email → Except Unit Bool) (p : CleanupPolicy) :
    (Cleaner.clean parsedate now (.error ()) deleteFn p = 0) ∧
    (∀ emails : List Email,
      (∀ e ∈ emails, Cleaner.should_delete parsedate now e p = true →
        deleteFn e ≠ .error ()) →
      Cleaner.clean parsedate now (.ok emails) deleteFn p =
        successCount parsedate now deleteFn p emails) ∧
    (∀ (pre : List Email) (e : Email) (post : List Email),
      (∀ e' ∈ pre, Cleaner.should_delete parsedate now e' p = true →
        deleteFn e' ≠ .error ()) →
      Cleaner.should_delete parsedate now e p = true →
      deleteFn e = .error () →
      Cleaner.clean parsedate now (.ok (pre ++ e :: post)) deleteFn p =
        successCount parsedate now deleteFn p pre) := by
  refine ⟨rfl, fun emails h => ?_, fun pre e post h hsd hdel => ?_⟩
  · rw [Cleaner.clean, cleanLoop_no_error parsedate now deleteFn p emails 0 h,
      Nat.zero_add]
  · rw [Cleaner.clean,
      cleanLoop_error_at parsedate now deleteFn p e post hsd hdel pre 0 h,
      Nat.zero_add]

/-- Witness for C1: an exception-free run counts its successes, and a run
with a failing first email stops with the prefix count. -/
theorem clean_counts_successes_up_to_first_failure_witness :
    Cleaner.clean (fun _ => none) 0 (.ok [readEmailA, readEmailB])
        (fun _ => .ok true) readPolicy =
      successCount (fun _ => none) 0 (fun _ => .ok true) readPolicy
        [readEmailA, readEmailB] ∧
    Cleaner.clean (fun _ => none) 0 (.ok ([] ++ readEmailA :: [readEmailB]))
        failFirstDelete readPolicy =
      successCount (fun _ => none) 0 failFirstDelete readPolicy [] :=
  ⟨(clean_counts_successes_up_to_first_failure (fun _ => none) 0
      (fun _ => .ok true) readPolicy).2.1 [readEmailA, readEmailB]
      (fun _ _ _ h => nomatch h),
   (clean_counts_successes_up_to_first_failure (fun _ => none) 0
      failFirstDelete readPolicy).2.2 [] readEmailA [readEmailB]
      (fun e' he' => nomatch he') (by decide) rfl⟩

end MailAgent
